import Mathlib

/-!
Shallow embedding of the `bk` terminal EPUB reader core (`src/main.rs`).

Strings are modelled as `List Char`; byte offsets are computed from UTF-8
character sizes, exactly as Rust's `char_indices` produces them.  Rust
operations that can panic (byte slicing of a `str`, `Vec` indexing, integer
underflow followed by indexing) are modelled in `Option`, with `none`
standing for a panic.  `usize` subtraction in release mode wraps modulo
2^64; `usizeSub` models that.
-/

/-- Number of bytes of a character in UTF-8, as Rust's `char::len_utf8`. -/
def csize (c : Char) : Nat :=
  if c.toNat < 0x80 then 1
  else if c.toNat < 0x800 then 2
  else if c.toNat < 0x10000 then 3
  else 4

/-- Total UTF-8 byte length of a string. -/
def utf8Len (s : List Char) : Nat := (s.map csize).sum

/-- Take exactly `n` leading bytes of `s`; `none` when `n` is not a
character boundary or exceeds the string (a Rust slicing panic). -/
def takeBytes : List Char → Nat → Option (List Char)
  | _, 0 => some []
  | [], _ + 1 => none
  | c :: cs, n + 1 =>
    if csize c ≤ n + 1 then
      (takeBytes cs (n + 1 - csize c)).map (c :: ·)
    else none

/-- Drop exactly `n` leading bytes of `s`; `none` on a non-boundary or
out-of-range byte index (a Rust slicing panic). -/
def dropBytes : List Char → Nat → Option (List Char)
  | s, 0 => some s
  | [], _ + 1 => none
  | c :: cs, n + 1 =>
    if csize c ≤ n + 1 then dropBytes cs (n + 1 - csize c) else none

/-- Rust `&text[a..b]`: `none` models the panic on `a > b`, an out-of-range
index, or a non-character-boundary index. -/
def sliceBytes (s : List Char) (a b : Nat) : Option (List Char) :=
  if a ≤ b then (dropBytes s a).bind (fun t => takeBytes t (b - a)) else none

/-- The mutable locals of `wrap` in `src/main.rs` (`lines`, `start`, `end`,
`len`, `word`, `skip`); `end` is a Lean keyword, hence `end_`. -/
structure WrapState where
  lines : List (Nat × List Char)
  start : Nat
  end_ : Nat
  len : Nat
  word : Nat
  skip : Nat
deriving DecidableEq

/-- One iteration of the `for (i, c) in text.char_indices()` loop body of
`wrap`: the `match c` arms first, then the newline / overflow emission.
`none` models a panic of the byte slicing. -/
def wrapStep (text : List Char) (width : Nat) (st : WrapState) (i : Nat)
    (c : Char) : Option WrapState :=
  let len := st.len + 1
  let st1 : WrapState :=
    if c = ' ' then { st with end_ := i, skip := 1, word := 0 }
    else if c = '-' ∨ c = '—' then
      if len > width then { st with word := st.word + 1 }
      else { st with end_ := i + csize c, skip := 0, word := 0 }
    else { st with word := st.word + 1 }
  if c = '\n' then
    match sliceBytes text st.start i with
    | none => none
    | some line =>
      some { st1 with lines := st.lines ++ [(st.start, line)],
                      start := i + 1, len := 0 }
  else if len > width then
    let hi := if st1.word = len then i else st1.end_
    match sliceBytes text st.start hi with
    | none => none
    | some line =>
      some { st1 with lines := st.lines ++ [(st.start, line)],
                      start := st1.end_ + st1.skip, len := st1.word }
  else
    some { st1 with len := len }

/-- The loop of `wrap`, iterating `wrapStep` over the remaining characters,
`i` being the byte offset of the first of them in `text`. -/
def wrapGo (text : List Char) (width : Nat) :
    List Char → Nat → WrapState → Option WrapState
  | [], _, st => some st
  | c :: cs, i, st =>
    match wrapStep text width st i c with
    | none => none
    | some st' => wrapGo text width cs (i + csize c) st'

/-- Initial state of `wrap`: empty output, all counters zero. -/
def wrapInit : WrapState := ⟨[], 0, 0, 0, 0, 0⟩

/-- `wrap(text, width)` from `src/main.rs`: the produced
`(byte offset, line)` list, `none` when the Rust code panics. -/
def wrap (text : List Char) (width : Nat) : Option (List (Nat × List Char)) :=
  (wrapGo text width text 0 wrapInit).map WrapState.lines

/-- Boolean list-prefix test (Rust pattern matching at a position). -/
def isPre : List Char → List Char → Bool
  | [], _ => true
  | _ :: _, [] => false
  | a :: as, b :: bs => a = b && isPre as bs

/-- Helper of `findSub`: first match at or after the current position,
`acc` being the byte offset of that position. -/
def findFrom : List Char → List Char → Nat → Option Nat
  | [], needle, acc => if needle = [] then some acc else none
  | c :: cs, needle, acc =>
    if isPre needle (c :: cs) then some acc
    else findFrom cs needle (acc + csize c)

/-- Rust `str::find(&needle)`: byte offset of the first occurrence. -/
def findSub (hay needle : List Char) : Option Nat := findFrom hay needle 0

/-- Helper of `rfindSub`: remembers the byte offset of the last match seen. -/
def rfindFrom : List Char → List Char → Nat → Option Nat → Option Nat
  | [], needle, acc, best => if needle = [] then some acc else best
  | c :: cs, needle, acc, best =>
    let best' := if isPre needle (c :: cs) then some acc else best
    rfindFrom cs needle (acc + csize c) best'

/-- Rust `str::rfind(&needle)`: byte offset of the last occurrence. -/
def rfindSub (hay needle : List Char) : Option Nat := rfindFrom hay needle 0 none

/-- Helper of `binary_search`, scanning with an index accumulator. -/
def bsGo : List Nat → Nat → Nat → Except Nat Nat
  | [], _, acc => Except.error acc
  | x :: xs, t, acc =>
    if t < x then Except.error acc
    else if t = x then Except.ok acc
    else bsGo xs t (acc + 1)

/-- The documented contract of Rust `slice::binary_search` on a sorted
slice, quoted in the source comment above `Bk::search`: `Ok` with the index
of a matching element, else `Err` with the insertion point. -/
def binary_search (l : List Nat) (t : Nat) : Except Nat Nat := bsGo l t 0

/-- `usize` arithmetic: 2^64. -/
def USIZE : Nat := 18446744073709551616

/-- Wrapping `usize` subtraction (Rust release-mode `a - b`). -/
def usizeSub (a b : Nat) : Nat := (a + USIZE - b) % USIZE

/-- The `Ok(n) => n, Err(n) => n - 1` resolution of a matched byte offset
to a line index in `Bk::search`. -/
def resolveLine (bytes : List Nat) (b : Nat) : Nat :=
  match binary_search bytes b with
  | Except.ok n => n
  | Except.error n => usizeSub n 1

/-- `struct Chapter` of `src/main.rs`. -/
structure Chapter where
  text : List Char
  lines : List (List Char)
  bytes : List Nat
deriving DecidableEq

/-- The per-chapter part of `Bk::new`: run `wrap` and unzip the pairs into
the parallel `lines` / `bytes` arrays. -/
def Chapter.fromWrap (text : List Char) (width : Nat) : Option Chapter :=
  match wrap text width with
  | none => none
  | some ws => some { text := text, lines := ws.map Prod.snd,
                      bytes := ws.map Prod.fst }

/-- `enum Direction` of `src/main.rs`. -/
inductive Direction
  | Forward
  | Backward
deriving DecidableEq

/-- The fields of `struct Bk` that the core state machine reads and
writes.  The terminal-only fields (`view`, `cols`, `max_width`, `nav_idx`,
`nav_top`), which no modelled operation touches, are omitted. -/
structure Bk where
  chapter : Nat
  line : Nat
  jump : Nat × Nat
  chapters : List Chapter
  toc : List (List Char)
  rows : Nat
  search : List Char
deriving DecidableEq

/-- `Bk::jump(&mut self)`: restore the cursor from the saved jump pair
(the method; `jump` names the field, hence the prime). -/
def Bk.jump' (bk : Bk) : Bk :=
  { bk with chapter := bk.jump.1, line := bk.jump.2 }

/-- `Bk::next_chapter`.  Note the bound is `toc.len() - 1`, computed with
wrapping `usize` subtraction. -/
def Bk.next_chapter (bk : Bk) : Bk :=
  if bk.chapter < usizeSub bk.toc.length 1 then
    { bk with chapter := bk.chapter + 1, line := 0 }
  else bk

/-- `Bk::prev_chapter`. -/
def Bk.prev_chapter (bk : Bk) : Bk :=
  if bk.chapter > 0 then { bk with chapter := bk.chapter - 1, line := 0 }
  else bk

/-- `Bk::scroll_down(n)`; the `self.lines()` indexing of
`chapters[chapter]` is the panic point modelled by `none`. -/
def Bk.scroll_down (bk : Bk) (n : Nat) : Option Bk :=
  match bk.chapters.get? bk.chapter with
  | none => none
  | some ch =>
    if bk.line + bk.rows < ch.lines.length then
      some { bk with line := bk.line + n }
    else some bk.next_chapter

/-- `Bk::scroll_up(n)`; Rust `saturating_sub` is `Nat` subtraction. -/
def Bk.scroll_up (bk : Bk) (n : Nat) : Option Bk :=
  if bk.line > 0 then some { bk with line := bk.line - n }
  else
    let bk' := bk.prev_chapter
    match bk'.chapters.get? bk'.chapter with
    | none => none
    | some ch => some { bk' with line := ch.lines.length - bk.rows }

/-- The loop body of forward search over the chapters
`chapter+1 .. chapters.len()-1`, each searched from byte 0; `fuel` is the
number of chapters left in that half-open range, `c` the current index.
Result: `none` = panic, `some none` = range exhausted without a match,
`some (some (c, line))` = match resolved. -/
def fwdScan (chapters : List Chapter) (needle : List Char) :
    Nat → Nat → Option (Option (Nat × Nat))
  | _, 0 => some none
  | c, fuel + 1 =>
    match chapters.get? c with
    | none => none
    | some ch =>
      match dropBytes ch.text 0 with
      | none => none
      | some hay =>
        match findSub hay needle with
        | some idx => some (some (c, resolveLine ch.bytes idx))
        | none => fwdScan chapters needle (c + 1) fuel

/-- The loop body of backward search over `(0..upper).rev()`: `fuel` is
the number of indices left, so the current chapter index is `fuel - 1`.
Same result convention as `fwdScan`. -/
def backScan (chapters : List Chapter) (needle : List Char) :
    Nat → Option (Option (Nat × Nat))
  | 0 => some none
  | k + 1 =>
    match chapters.get? k with
    | none => none
    | some ch =>
      match takeBytes ch.text (utf8Len ch.text) with
      | none => none
      | some hay =>
        match rfindSub hay needle with
        | some idx => some (some (k, resolveLine ch.bytes idx))
        | none => backScan chapters needle k

/-- Shared tail of `Bk::search`: apply a scan result, falling back to
`self.jump()` when every scanned chapter missed. -/
def searchFinish (bk : Bk) (r : Option (Option (Nat × Nat))) : Option Bk :=
  match r with
  | none => none
  | some (some p) => some { bk with chapter := p.1, line := p.2 }
  | some none => some bk.jump'

/-- `Bk::search(dir)` from `src/main.rs` (the field `search` holds the
query, hence the prime on the method name).  The head pair
`(chapter, bytes[line])` is built before the direction split; forward
continues into `chapter+1 .. chapters.len()-1`, backward into
`(0 .. chapter-1).rev()`, both with wrapping `usize` subtraction. -/
def Bk.search' (bk : Bk) (dir : Direction) : Option Bk :=
  match bk.chapters.get? bk.chapter with
  | none => none
  | some ch0 =>
    match ch0.bytes.get? bk.line with
    | none => none
    | some headByte =>
      match dir with
      | Direction.Forward =>
        match dropBytes ch0.text headByte with
        | none => none
        | some hay =>
          match findSub hay bk.search with
          | some idx =>
            some { bk with line := resolveLine ch0.bytes (headByte + idx) }
          | none =>
            let stop := usizeSub bk.chapters.length 1
            searchFinish bk
              (fwdScan bk.chapters bk.search (bk.chapter + 1)
                (stop - (bk.chapter + 1)))
      | Direction.Backward =>
        match takeBytes ch0.text headByte with
        | none => none
        | some hay =>
          match rfindSub hay bk.search with
          | some idx => some { bk with line := resolveLine ch0.bytes idx }
          | none =>
            searchFinish bk
              (backScan bk.chapters bk.search (usizeSub bk.chapter 1))

/-- The `KeyCode::Char('\'')` arm of `Page::run`: save the cursor, jump,
store the old cursor as the new jump. -/
def Page_run_apostrophe (bk : Bk) : Bk :=
  let j := (bk.chapter, bk.line)
  let bk' := bk.jump'
  { bk' with jump := j }

/-- The `KeyCode::Char('n')` arm of `Page::run`: `scroll_down(1)` then
`search(Forward)`. -/
def Page_run_n (bk : Bk) : Option Bk :=
  match bk.scroll_down 1 with
  | none => none
  | some bk' => bk'.search' Direction.Forward

/-- The `KeyCode::Char(c)` arm of `Search::run`: push the character onto
the query, then `search(Forward)`. -/
def Search_run_char (c : Char) (bk : Bk) : Option Bk :=
  ({ bk with search := bk.search ++ [c] } : Bk).search' Direction.Forward

/-- Iterated `scroll_down n`, `k` times (the "repeatedly scrolling down"
of the spec's §8 property). -/
def scrollDownN (n : Nat) : Nat → Bk → Option Bk
  | 0, bk => some bk
  | k + 1, bk =>
    match bk.scroll_down n with
    | none => none
    | some bk' => scrollDownN n k bk'

/-! ## Concrete session states

Each `Chapter` below equals `Chapter.fromWrap` of its text at width 5
(proved in `example_chapters_from_wrap`), so the states satisfy the data
model's invariants: parallel `lines`/`bytes` arrays with strictly
increasing offsets starting at 0, valid chapter and line indices. -/

/-- Chapter whose single display line is "aa". -/
def chAA : Chapter := { text := "aa\n".toList, lines := ["aa".toList], bytes := [0] }

/-- Chapter whose single display line is "xy". -/
def chXY : Chapter := { text := "xy\n".toList, lines := ["xy".toList], bytes := [0] }

/-- Chapter with the two display lines "ab" and "cd". -/
def chAB2 : Chapter :=
  { text := "ab\ncd\n".toList, lines := ["ab".toList, "cd".toList], bytes := [0, 3] }

/-- Chapter with three display lines, all "ab". -/
def chAB3 : Chapter :=
  { text := "ab\nab\nab\n".toList,
    lines := ["ab".toList, "ab".toList, "ab".toList], bytes := [0, 3, 6] }

/-- Valid one-chapter session whose query "zz" occurs nowhere; backward
search from chapter 0 underflows the `0..chapter-1` range. -/
def bkNoMatch : Bk :=
  { chapter := 0, line := 0, jump := (0, 0), chapters := [chAA],
    toc := ["a".toList], rows := 1, search := "zz".toList }

/-- Two-chapter session, cursor in chapter 0, query "xy" present only in
the final chapter (index 1). -/
def bkFwd : Bk :=
  { chapter := 0, line := 0, jump := (0, 0), chapters := [chAA, chXY],
    toc := ["a".toList, "b".toList], rows := 1, search := "xy".toList }

/-- Two-chapter session, cursor in chapter 1, query "xy" present only in
the immediately preceding chapter (index 0). -/
def bkBwd : Bk :=
  { chapter := 1, line := 0, jump := (1, 0), chapters := [chXY, chAA],
    toc := ["a".toList, "b".toList], rows := 1, search := "xy".toList }

/-- Search-input session: cursor on line 1 after a previous match, saved
jump at (0,0), query "z" about to become the never-matching "zz". -/
def bkMiss : Bk :=
  { chapter := 0, line := 1, jump := (0, 0), chapters := [chAB2],
    toc := ["a".toList], rows := 1, search := ['z'] }

/-- Reading session at the top of the first (and only) chapter, which has
more lines (2) than viewport rows (1). -/
def bkTop1 : Bk :=
  { chapter := 0, line := 0, jump := (0, 0), chapters := [chAB2],
    toc := ["a".toList], rows := 1, search := [] }

/-- Reading session at the top of the second of two chapters. -/
def bkTop2 : Bk :=
  { chapter := 1, line := 0, jump := (0, 0), chapters := [chAB2, chAB2],
    toc := ["a".toList, "b".toList], rows := 1, search := [] }

/-- Degenerate document: one chapter but an empty table-of-contents label
list, cursor on the last line of the last chapter. -/
def bkNoToc : Bk :=
  { chapter := 0, line := 0, jump := (0, 0), chapters := [chAA],
    toc := [], rows := 1, search := [] }

/-- Same document with one toc label, cursor on the last line of the last
chapter. -/
def bkToc1 : Bk :=
  { chapter := 0, line := 0, jump := (0, 0), chapters := [chAA],
    toc := ["a".toList], rows := 1, search := [] }

/-- Session for repeat-search: three identical lines "ab", the query "ab"
matching at the start of the current top line (byte 0) and again later. -/
def bkRepeat : Bk :=
  { chapter := 0, line := 0, jump := (0, 0), chapters := [chAB3],
    toc := ["a".toList], rows := 1, search := "ab".toList }

/-! ## Helper lemmas -/

/-- The concrete chapters above are exactly what `Bk::new` builds from
their texts at width 5. -/
theorem example_chapters_from_wrap :
    Chapter.fromWrap "aa\n".toList 5 = some chAA ∧
    Chapter.fromWrap "xy\n".toList 5 = some chXY ∧
    Chapter.fromWrap "ab\ncd\n".toList 5 = some chAB2 ∧
    Chapter.fromWrap "ab\nab\nab\n".toList 5 = some chAB3 := by decide

/-- A backward chapter scan whose first index is already out of bounds
panics at the `chapters[c]` indexing. -/
theorem backScan_oob (chapters : List Chapter) (needle : List Char) (k : Nat)
    (h : chapters.length ≤ k) : backScan chapters needle (k + 1) = none := by
  simp only [backScan]
  rw [List.get?_eq_none.mpr h]

/-- Wrapping usize subtraction of 1 is plain subtraction on 1 ≤ a < 2^64. -/
theorem usizeSub_one (a : Nat) (h1 : 1 ≤ a) (h2 : a < USIZE) :
    usizeSub a 1 = a - 1 := by
  simp only [usizeSub, USIZE] at h2 ⊢
  omega

/-- A non-newline character that does not overflow the width is absorbed
into the running line without emitting anything. -/
theorem wrapStep_no_emit (full : List Char) (width i : Nat) (st : WrapState)
    (c : Char) (hc : c ≠ '\n') (hw : st.len + 1 ≤ width) :
    ∃ st', wrapStep full width st i c = some st' ∧ st'.lines = st.lines ∧
      st'.len = st.len + 1 ∧ st'.start = st.start := by
  have hlen : ¬ (st.len + 1 > width) := Nat.not_lt.mpr hw
  simp only [wrapStep, if_neg hc, if_neg hlen]
  split_ifs <;> exact ⟨_, rfl, rfl, rfl, rfl⟩

/-- Processing a run of characters with no newline that never exceeds the
width emits no line at all. -/
theorem wrapGo_no_emit (full : List Char) (width : Nat) :
    ∀ (l : List Char), '\n' ∉ l → ∀ (i : Nat) (st : WrapState),
      st.len + l.length ≤ width →
      ∃ st', wrapGo full width l i st = some st' ∧ st'.lines = st.lines := by
  intro l
  induction l with
  | nil => exact fun _ i st _ => ⟨st, rfl, rfl⟩
  | cons c cs ih =>
    intro hnl i st hlen
    have hc : c ≠ '\n' := fun h => hnl (h ▸ List.mem_cons_self c cs)
    have hw : st.len + 1 ≤ width := by
      simp only [List.length_cons] at hlen; omega
    obtain ⟨st1, hstep, hlines, hlen1, _⟩ :=
      wrapStep_no_emit full width i st c hc hw
    have hrest : st1.len + cs.length ≤ width := by
      rw [hlen1]; simp only [List.length_cons] at hlen; omega
    obtain ⟨st', hgo, hlines'⟩ :=
      ih (fun h => hnl (List.mem_cons_of_mem c h)) (i + csize c) st1 hrest
    refine ⟨st', ?_, hlines'.trans hlines⟩
    simp only [wrapGo]
    rw [hstep]
    exact hgo

/-- One `scroll_down` from a valid state with a nonempty toc no longer
than the chapter list stays inside the chapter list and cannot panic. -/
theorem scroll_down_keeps_valid (bk : Bk) (n : Nat)
    (h1 : 1 ≤ bk.toc.length) (h2 : bk.toc.length ≤ bk.chapters.length)
    (h3 : bk.chapters.length < USIZE) (h4 : bk.chapter < bk.chapters.length) :
    ∃ bk', bk.scroll_down n = some bk' ∧ bk'.chapter < bk'.chapters.length ∧
      bk'.chapters = bk.chapters ∧ bk'.toc = bk.toc := by
  have hch : bk.chapters.get? bk.chapter = some (bk.chapters.get ⟨bk.chapter, h4⟩) :=
    List.get?_eq_get h4
  unfold Bk.scroll_down
  rw [hch]
  by_cases hroom : bk.line + bk.rows < (bk.chapters.get ⟨bk.chapter, h4⟩).lines.length
  · simp only [if_pos hroom]
    exact ⟨_, rfl, h4, rfl, rfl⟩
  · simp only [if_neg hroom]
    unfold Bk.next_chapter
    rw [usizeSub_one bk.toc.length h1 (lt_of_le_of_lt h2 h3)]
    by_cases hc : bk.chapter < bk.toc.length - 1
    · simp only [if_pos hc]
      exact ⟨_, rfl, by simp; omega, rfl, rfl⟩
    · simp only [if_neg hc]
      exact ⟨_, rfl, h4, rfl, rfl⟩

/-! ## Claim theorems -/

/-- C1: the claim asserts `wrap` and `Bk::search` are total over valid
inputs, but the code panics: `wrap("a b\ncccc", 3)` keeps the stale break
offset `end = 1` across the newline and slices `text[4..1]`, and backward
search from chapter 0 on a query with no match computes the range
`0..(0usize - 1)` and indexes `chapters[2^64 - 2]`.  Both panics are the
`none` results below (`bkNoMatch` satisfies every data-model invariant). -/
theorem wrap_and_backward_search_panic :
    wrap "a b\ncccc".toList 3 = none ∧
    Bk.search' bkNoMatch Direction.Backward = none := by
  constructor
  · decide
  · have hk : usizeSub 0 1 = 18446744073709551614 + 1 := by decide
    have h : backScan bkNoMatch.chapters bkNoMatch.search (usizeSub 0 1) = none := by
      rw [hk]
      exact backScan_oob _ _ _ (by decide)
    calc Bk.search' bkNoMatch Direction.Backward
        = searchFinish bkNoMatch
            (backScan bkNoMatch.chapters bkNoMatch.search
              (usizeSub bkNoMatch.chapter 1)) := rfl
      _ = none := by rw [show bkNoMatch.chapter = 0 from rfl, h]; rfl

/-- C2 counterexample: `wrap("hello world", 5)` does not return the two
lines "hello" and "world" at offsets 0 and 6 that the claim states. -/
theorem reflow_hello_world_two_lines_false :
    ¬ (wrap "hello world".toList 5 =
        some [(0, "hello".toList), (6, "world".toList)]) := by decide

/-- C2 amended: `wrap("hello world", 5)` returns exactly one line,
"hello" at byte offset 0; the final segment "world" is never flushed. -/
theorem reflow_hello_world_single_line :
    wrap "hello world".toList 5 = some [(0, "hello".toList)] := by decide

/-- C3: the reflow engine emits only on newlines or overflow, never at
end of input.  First part: running the loop over any final run of
characters containing no newline and never pushing the accumulated length
past the width leaves the emitted lines untouched.  Second part: in
particular a whole text with no newline that fits the width produces no
output lines at all. -/
theorem reflow_no_trailing_flush :
    (∀ (full : List Char) (width : Nat) (l : List Char), '\n' ∉ l →
        ∀ (i : Nat) (st : WrapState), st.len + l.length ≤ width →
        ∃ st', wrapGo full width l i st = some st' ∧ st'.lines = st.lines) ∧
    (∀ (l : List Char) (width : Nat), '\n' ∉ l → l.length ≤ width →
        wrap l width = some []) := by
  refine ⟨wrapGo_no_emit, fun l width hn hw => ?_⟩
  obtain ⟨st', h, hl⟩ :=
    wrapGo_no_emit l width l hn 0 wrapInit (by simpa [wrapInit] using hw)
  unfold wrap
  rw [h]
  simp [hl, wrapInit]

/-- C3 witness: the text "abc" at width 5 (no newline, fits the width)
yields no lines. -/
theorem reflow_no_trailing_flush_witness : wrap "abc".toList 5 = some [] :=
  reflow_no_trailing_flush.2 "abc".toList 5 (by decide) (by decide)

/-- C4: evaluation at the failing input.  `bkFwd` has two chapters and its
query "xy" occurs (at byte 0) only in the final chapter, index 1; yet
forward search returns the jump-restored original state still in chapter
0, because the scanned range `chapter+1..chapters.len()-1` excludes the
last chapter.  The claim (and the spec) requires the cursor to land in
the final chapter. -/
theorem forward_search_misses_last_chapter :
    bkFwd.chapters.length = 2 ∧
    bkFwd.chapters.get? 1 = some chXY ∧
    findSub chXY.text bkFwd.search = some 0 ∧
    bkFwd.search' Direction.Forward = some bkFwd ∧
    bkFwd.chapter = 0 := by decide

/-- C5: evaluation at the failing input.  `bkBwd` has its cursor in
chapter 1 and its query "xy" occurs (at byte 0) only in chapter 0, the
chapter immediately before; yet backward search returns the
jump-restored original state still in chapter 1, because the scanned
range `(0..chapter-1).rev()` excludes chapter `chapter-1`.  The claim
(and the spec) requires the match in the preceding chapter to be found. -/
theorem backward_search_misses_adjacent_chapter :
    bkBwd.chapters.length = 2 ∧
    bkBwd.chapters.get? 0 = some chXY ∧
    findSub chXY.text bkBwd.search = some 0 ∧
    bkBwd.search' Direction.Backward = some bkBwd ∧
    bkBwd.chapter = 1 := by decide

/-- C6 counterexample: in `bkMiss` the cursor sits on line 1 (a previous
match) with saved jump (0,0); appending 'z' makes the query "zz", which
matches nowhere, and the cursor is reset to (0,0) — it is not left
unchanged at (0,1) as the claim states. -/
theorem search_append_miss_cursor_changed :
    (Search_run_char 'z' bkMiss).map (fun b => (b.chapter, b.line)) =
      some (0, 0) ∧
    ¬ ((0, 0) = ((bkMiss.chapter, bkMiss.line) : Nat × Nat)) := by decide

/-- C6 amended: in SearchInput mode, appending a character whose
resulting query matches nowhere in the scanned range resets the cursor to
the saved jump position (`Bk::search` falls through to `self.jump()`). -/
theorem search_append_miss_restores_jump (bk : Bk) (c : Char) (ch0 : Chapter)
    (hb : Nat) (hay : List Char)
    (h1 : bk.chapters.get? bk.chapter = some ch0)
    (h2 : ch0.bytes.get? bk.line = some hb)
    (h3 : dropBytes ch0.text hb = some hay)
    (h4 : findSub hay (bk.search ++ [c]) = none)
    (h5 : fwdScan bk.chapters (bk.search ++ [c]) (bk.chapter + 1)
            (usizeSub bk.chapters.length 1 - (bk.chapter + 1)) = some none) :
    Search_run_char c bk =
      some { bk with search := bk.search ++ [c],
                     chapter := bk.jump.1, line := bk.jump.2 } := by
  simp only [Search_run_char, Bk.search', h1, h2, h3, h4, h5, searchFinish,
    Bk.jump']

/-- C6 witness: the amended behavior at the concrete state `bkMiss`. -/
theorem search_append_miss_restores_jump_witness :
    Search_run_char 'z' bkMiss =
      some { bkMiss with search := bkMiss.search ++ ['z'],
                         chapter := bkMiss.jump.1, line := bkMiss.jump.2 } :=
  search_append_miss_restores_jump bkMiss 'z' chAB2 3 "cd\n".toList
    (by decide) (by decide) (by decide) (by decide) (by decide)

/-- C7 counterexample: in `bkTop1` the cursor is at (0,0) in the first
chapter (2 lines, 1 viewport row); scrolling up moves it to line 1, so
the operation is not a no-op as the claim states. -/
theorem scroll_up_first_chapter_not_noop :
    (bkTop1.scroll_up 1).map (fun b => (b.chapter, b.line)) = some (0, 1) ∧
    ¬ ((0, 1) = ((bkTop1.chapter, bkTop1.line) : Nat × Nat)) := by decide

/-- C7 amended: scrolling up with `line == 0` always moves to chapter
`chapter - 1` (saturating, so the first chapter stays put) and sets
`line = max(0, thatChapterLineCount - viewportRows)` — including in the
first chapter, where the line is repositioned rather than left alone. -/
theorem scroll_up_into_previous_chapter (bk : Bk) (n : Nat) (ch : Chapter)
    (h0 : bk.line = 0)
    (h1 : bk.chapters.get? (bk.chapter - 1) = some ch) :
    bk.scroll_up n =
      some { bk with chapter := bk.chapter - 1,
                     line := ch.lines.length - bk.rows } := by
  simp only [Bk.scroll_up, Bk.prev_chapter, h0, lt_irrefl, if_false, gt_iff_lt]
  by_cases hc : 0 < bk.chapter
  · simp only [if_pos hc]
    simp only [h1]
  · simp only [if_neg hc]
    have hz : bk.chapter = 0 := by omega
    rw [hz] at h1 ⊢
    simp only [h1]

/-- C7 witness: from the top of the second chapter of `bkTop2`, scrolling
up lands in chapter 0 at line `2 - 1 = 1`. -/
theorem scroll_up_into_previous_chapter_witness :
    bkTop2.scroll_up 1 =
      some { bkTop2 with chapter := bkTop2.chapter - 1,
                         line := chAB2.lines.length - bkTop2.rows } :=
  scroll_up_into_previous_chapter bkTop2 1 chAB2 rfl (by decide)

/-- C8 counterexample: `bkNoToc` has one chapter but an empty toc label
list (labels fewer than chapters, as the claim allows).  `toc.len() - 1`
underflows, so one scroll down from the last line of the last chapter
sets the chapter index to 1 — past the last chapter (index 0) — and a
second scroll down panics indexing `chapters[1]`. -/
theorem scroll_down_empty_toc_escapes :
    (bkNoToc.scroll_down 1).map Bk.chapter = some 1 ∧
    bkNoToc.chapters.length = 1 ∧
    scrollDownN 1 2 bkNoToc = none := by decide

/-- C8 amended: for every document whose toc has at least one label and
no more labels than chapters, any number of scroll-downs from any valid
cursor (in particular from the last line of the last chapter) succeeds
without panicking and never moves the chapter index past the last
chapter. -/
theorem scroll_down_never_past_last (n : Nat) :
    ∀ (k : Nat) (bk : Bk), 1 ≤ bk.toc.length →
      bk.toc.length ≤ bk.chapters.length → bk.chapters.length < USIZE →
      bk.chapter < bk.chapters.length →
      ∃ bk', scrollDownN n k bk = some bk' ∧
        bk'.chapter < bk'.chapters.length := by
  intro k
  induction k with
  | zero => exact fun bk _ _ _ h4 => ⟨bk, rfl, h4⟩
  | succ k ih =>
    intro bk h1 h2 h3 h4
    obtain ⟨bk1, hstep, hlt, hchs, htoc⟩ :=
      scroll_down_keeps_valid bk n h1 h2 h3 h4
    obtain ⟨bk', hgo, hlt'⟩ :=
      ih bk1 (htoc ▸ h1) (by rw [htoc, hchs]; exact h2) (hchs ▸ h3) hlt
    refine ⟨bk', ?_, hlt'⟩
    simp only [scrollDownN]
    rw [hstep]
    exact hgo

/-- C8 witness: three scroll-downs from the last line of the last chapter
of `bkToc1` (one chapter, one toc label) succeed and stay in bounds. -/
theorem scroll_down_never_past_last_witness :
    ∃ bk', scrollDownN 1 3 bkToc1 = some bk' ∧
      bk'.chapter < bk'.chapters.length :=
  scroll_down_never_past_last 1 3 bkToc1 (by decide) (by decide)
    (by decide) (by decide)

/-- C9: the apostrophe command swaps cursor and saved jump, so applying
it twice returns the whole session state — cursor and saved jump
included — to its original value. -/
theorem apostrophe_swap_involutive (bk : Bk) :
    Page_run_apostrophe (Page_run_apostrophe bk) = bk := by
  obtain ⟨ch, l, ⟨j1, j2⟩, chs, toc, rows, s⟩ := bk
  rfl

/-- C10: pressing 'n' first scrolls down one line, then searches forward.
First part: whenever the chapter still has room below the viewport, the
'n' handler equals forward search from the cursor one line lower.  Second
part, at `bkRepeat` (query "ab" matching at the current top line's start
byte and again later): 'n' lands on line 1 — the repeated match — while
a plain forward search from the same state re-finds line 0. -/
theorem repeat_search_scrolls_first :
    (∀ (bk : Bk) (ch : Chapter), bk.chapters.get? bk.chapter = some ch →
        bk.line + bk.rows < ch.lines.length →
        Page_run_n bk =
          Bk.search' { bk with line := bk.line + 1 } Direction.Forward) ∧
    (Page_run_n bkRepeat).map (fun b => (b.chapter, b.line)) = some (0, 1) ∧
    (bkRepeat.search' Direction.Forward).map (fun b => (b.chapter, b.line)) =
      some (0, 0) := by
  refine ⟨fun bk ch h1 h2 => ?_, by decide, by decide⟩
  simp only [Page_run_n, Bk.scroll_down, h1, if_pos h2]

/-- C10 witness: the handler equation instantiated at `bkRepeat`. -/
theorem repeat_search_scrolls_first_witness :
    Page_run_n bkRepeat =
      Bk.search' { bkRepeat with line := bkRepeat.line + 1 }
        Direction.Forward :=
  repeat_search_scrolls_first.1 bkRepeat chAB3 (by decide) (by decide)
